import Mathlib

/-!
Shallow embedding of the outbound streaming-response dispatcher of
`src/solace_ai_connector_discord/components/discord_output.py`
(`DiscordOutput.invoke`, `DiscordSender.send_message` / `__send_message`,
`register_action_handlers.on_interaction`), together with theorems that
settle the frozen claims about it.

Modelling conventions:
* Python `str` values are Lean `String`s; `len` is `String.length`
  (both count code points) and the slice `s[:n]` is `pyTake s n`.
* `datetime.now().timestamp()` is an abstract `Int` carried on each chunk
  (the instant at which the dispatcher step for that chunk runs).
* The Discord message object returned by `TextChannel.send` is modelled by
  an abstract `Nat` handle carried on the chunk (`Chunk.handle`): it is the
  handle the platform would hand back if that chunk's step performs a send.
* Platform side effects (`send`, `Message.edit`, `Message.add_files`) are
  recorded in an explicit trace of `Call`s; `typing()` is side-effect-free
  for the claims and is not traced.
-/

namespace SolaceDiscord

/-- Python slice `s[:n]` over code points. -/
def pyTake (s : String) (n : Nat) : String := ⟨s.data.take n⟩

/-- The zero-width-space placeholder `"\u200B"` used for empty bodies. -/
def zwsp : String := "\u200B"

/-- What `self.app.get_channel(channel)` resolves to, as far as the
`isinstance(text_channel, (TextChannel, Thread))` test can observe:
a `TextChannel`, a `Thread`, or anything else (including `None`). -/
inductive ChannelKind where
  | text
  | thread
  | other
deriving DecidableEq

/-- The `isinstance(text_channel, (TextChannel, Thread))` check. -/
def postable : ChannelKind → Bool
  | .text => true
  | .thread => true
  | .other => false

/-- One queue item as observed by `DiscordSender.__send_message` through
`message.get_data("previous:...")`.  `textParts` is the normalised list
form of `previous:text` (`some s` a `str` part, `none` a non-string part);
`files` records the attachment names; `now` is the timestamp taken at the
start of the step; `handle` is the message handle the platform would
return if this step sends. -/
structure Chunk where
  uuid : String
  channelKind : ChannelKind
  textParts : List (Option String)
  files : List String
  lastChunk : Bool
  responseComplete : Bool
  now : Int
  handle : Nat
deriving DecidableEq

/-- The `text` accumulation loop:
`for part in messages: if not part or not isinstance(part, str): continue; text += part`. -/
def concatText (parts : List (Option String)) : String :=
  parts.foldl
    (fun acc p =>
      match p with
      | some s => if s = "" then acc else acc ++ s
      | none => acc)
    ""

/-- The per-response `State` dataclass (`text`, `last_edit`, `active`);
the `asyncio.Lock` is not part of the sequential step, and `ActiveState`
is reduced to the handle of its `message` field. -/
structure State where
  text : String
  last_edit : Int
  active : Option Nat
deriving DecidableEq

/-- `State(text="", last_edit=0, lock=asyncio.Lock(), active=None)`. -/
def initState : State := { text := "", last_edit := 0, active := none }

/-- A platform call performed by one dispatcher step. -/
inductive Call where
  | send (handle : Nat) (body : String) (view : Bool)
  | edit (handle : Nat) (body : String) (view : Bool)
  | addFiles (handle : Nat) (names : List String)
deriving DecidableEq

def Call.isSend : Call → Bool
  | .send .. => true
  | _ => false

/-- A rendering call: a message send or a message edit. -/
def Call.isRender : Call → Bool
  | .send .. => true
  | .edit .. => true
  | .addFiles .. => false

def Call.bodyOf : Call → String
  | .send _ b _ => b
  | .edit _ b _ => b
  | .addFiles _ _ => ""

/-- Whether the call attached the feedback view (`view=...` argument). -/
def Call.viewOf : Call → Bool
  | .send _ _ v => v
  | .edit _ _ v => v
  | .addFiles _ _ => false

/-- Lines 394-401: decode the files and `add_files` them onto the active
message when there are any. -/
def fileCalls (handle : Nat) (files : List String) : List Call :=
  if files.isEmpty then [] else [Call.addFiles handle files]

/-- Lines 379-381: `full = text or "\u200b"; if len(full) > 2000: full = full[:2000]`. -/
def renderBody (text : String) : String :=
  let full0 := if text = "" then zwsp else text
  if 2000 < full0.length then pyTake full0 2000 else full0

/-- One run of `DiscordSender.__send_message(message, state)` for a chunk
`c`, holding the state's lock.  `fb` is `self.feedback_endpoint is not None`.
Returns the updated state together with the platform calls performed.

Faithful points worth flagging:
* line 364: the duplicate/stale check compares against `state.text`, and no
  line of `__send_message` ever assigns `state.text`, so the stored text
  stays as initialised;
* line 368-371: the throttle gate mutates `state.last_edit` before the
  channel is resolved, so an unroutable chunk that passes the gate still
  advances `last_edit`;
* line 383: the feedback view is built iff `response_complete` and a
  feedback endpoint is configured;
* lines 385-392: send if `state.active` is unset (storing the returned
  handle), otherwise edit the stored handle. -/
def sendStep (fb : Bool) (st : State) (c : Chunk) : State × List Call :=
  let text := concatText c.textParts
  if text.length ≤ st.text.length ∧ c.lastChunk = false then
    (st, [])
  else if c.lastChunk = true ∨ c.responseComplete = true ∨ c.now - st.last_edit > 1200 then
    let st1 : State := { st with last_edit := c.now }
    if postable c.channelKind = false then
      (st1, [])
    else
      let full := renderBody text
      let view := c.responseComplete && fb
      match st1.active with
      | none =>
          ({ st1 with active := some c.handle },
            Call.send c.handle full view :: fileCalls c.handle c.files)
      | some h =>
          (st1, Call.edit h full view :: fileCalls h c.files)
  else
    (st, [])

/-- Number of `send` calls in a trace. -/
def sendCount (tr : List Call) : Nat := (tr.filter Call.isSend).length

/-- Sequential processing of the chunks of one response id (the per-state
lock serialises the steps for one id in FIFO order). -/
def run1 (fb : Bool) : State → List Chunk → State × List Call
  | st, [] => (st, [])
  | st, c :: cs =>
    let r := sendStep fb st c
    let rest := run1 fb r.1 cs
    (rest.1, r.2 ++ rest.2)

/-- The dispatcher's `state_by_uuid` dictionary.  A uuid that was never
inserted maps to the zero state `DiscordSender.send_message` would insert
for it on its first chunk, so `getOrCreate` is plain application. -/
abbrev StateMap := String → State

def initMap : StateMap := fun _ => initState

/-- One pass of `DiscordSender.send_message(message)`: look up (or create)
the state for the chunk's uuid, run `__send_message` on it under the
state's lock, and store the result back under that uuid.  Calls in the
trace are tagged with the uuid they were performed for. -/
def dispatchStep (fb : Bool) (m : StateMap) (c : Chunk) :
    StateMap × List (String × Call) :=
  let r := sendStep fb (m c.uuid) c
  (fun u => if u = c.uuid then r.1 else m u,
    r.2.map (fun call => (c.uuid, call)))

/-- The dispatcher loop over a FIFO interleaving of chunks for any number
of response ids (per-id FIFO order and per-id lock serialisation make the
interleaved runs equivalent to this sequential fold). -/
def runMap (fb : Bool) : StateMap → List Chunk → StateMap × List (String × Call)
  | m, [] => (m, [])
  | m, c :: cs =>
    let r := dispatchStep fb m c
    let rest := runMap fb r.1 cs
    (rest.1, r.2 ++ rest.2)

/-! ### Structural lemmas about one dispatcher step -/

lemma mem_fileCalls {h : Nat} {fs : List String} {call : Call}
    (hc : call ∈ fileCalls h fs) : call = Call.addFiles h fs := by
  unfold fileCalls at hc
  split at hc
  · simp at hc
  · simpa using hc

/-- Case analysis of `sendStep`: either the step performs no platform call
and leaves `active` as it was, or `active` was unset and the step sends
with the chunk's handle and stores it, or `active` held `h` and the step
edits `h`. -/
lemma sendStep_shape (fb : Bool) (st : State) (c : Chunk) :
    ((sendStep fb st c).1.active = st.active ∧ (sendStep fb st c).2 = []) ∨
    (∃ body view, st.active = none ∧
      (sendStep fb st c).1.active = some c.handle ∧
      (sendStep fb st c).2 = Call.send c.handle body view :: fileCalls c.handle c.files) ∨
    (∃ h body view, st.active = some h ∧
      (sendStep fb st c).1.active = some h ∧
      (sendStep fb st c).2 = Call.edit h body view :: fileCalls h c.files) := by
  obtain ⟨t, le, a⟩ := st
  by_cases h1 : (concatText c.textParts).length ≤ t.length ∧ c.lastChunk = false
  · left
    simp [sendStep, h1]
  · by_cases h2 : c.lastChunk = true ∨ c.responseComplete = true ∨ c.now - le > 1200
    · by_cases h3 : postable c.channelKind = false
      · left
        simp [sendStep, h1, h2, h3]
      · cases a with
        | none =>
            right; left
            refine ⟨renderBody (concatText c.textParts), c.responseComplete && fb, rfl, ?_, ?_⟩ <;>
              simp [sendStep, h1, h2, h3]
        | some h =>
            right; right
            refine ⟨h, renderBody (concatText c.textParts), c.responseComplete && fb, rfl, ?_, ?_⟩ <;>
              simp [sendStep, h1, h2, h3]
    · left
      simp [sendStep, h1, h2]

/-- Once `active` holds a handle `h`, a step never sends and only ever
edits `h`, and `active` still holds `h` afterwards. -/
lemma run1_active_some (fb : Bool) (h : Nat) :
    ∀ (cs : List Chunk) (st : State), st.active = some h →
      (run1 fb st cs).1.active = some h ∧
      ∀ call ∈ (run1 fb st cs).2, Call.isSend call = false ∧
        ∀ h2 b v, call = Call.edit h2 b v → h2 = h := by
  intro cs
  induction cs with
  | nil => intro st ha; simpa [run1] using ha
  | cons c cs ih =>
      intro st ha
      rcases sendStep_shape fb st c with hsh | hsh | hsh
      · obtain ⟨hact, htr⟩ := hsh
        have := ih (sendStep fb st c).1 (hact.trans ha)
        simp only [run1, htr, List.nil_append]
        exact this
      · obtain ⟨body, view, hnone, -, -⟩ := hsh
        rw [ha] at hnone; cases hnone
      · obtain ⟨h0, body, view, hsome, hact, htr⟩ := hsh
        have hh : h0 = h := by
          rw [ha] at hsome; injection hsome with he; exact he.symm
        subst hh
        have hrest := ih (sendStep fb st c).1 hact
        refine ⟨by simpa [run1] using hrest.1, ?_⟩
        intro call hcall
        simp only [run1, htr, List.mem_append, List.mem_cons] at hcall
        rcases hcall with (hcall | hcall) | hcall
        · subst hcall
          exact ⟨rfl, fun h2 b v he => by injection he with h2e; omega⟩
        · have := mem_fileCalls hcall
          subst this
          exact ⟨rfl, fun h2 b v he => by cases he⟩
        · exact hrest.2 call hcall

/-- Starting with no active message, a whole run performs at most one
send, every edit targets a previously sent handle, and a send's handle
is what `active` holds at the end of the run. -/
lemma run1_active_none (fb : Bool) :
    ∀ (cs : List Chunk) (st : State), st.active = none →
      sendCount (run1 fb st cs).2 ≤ 1 ∧
      (∀ h b v, Call.edit h b v ∈ (run1 fb st cs).2 →
        ∃ b2 v2, Call.send h b2 v2 ∈ (run1 fb st cs).2) ∧
      (∀ h b v, Call.send h b v ∈ (run1 fb st cs).2 →
        (run1 fb st cs).1.active = some h) := by
  intro cs
  induction cs with
  | nil =>
      intro st ha
      refine ⟨by simp [run1, sendCount], ?_, ?_⟩ <;> intro h b v hm <;> simp [run1] at hm
  | cons c cs ih =>
      intro st ha
      rcases sendStep_shape fb st c with hsh | hsh | hsh
      · obtain ⟨hact, htr⟩ := hsh
        have := ih (sendStep fb st c).1 (hact.trans ha)
        simp only [run1, htr, List.nil_append]
        exact this
      · obtain ⟨body, view, -, hact, htr⟩ := hsh
        have hrest := run1_active_some fb c.handle cs (sendStep fb st c).1 hact
        constructor
        · -- exactly the head send; the tail contains none
          simp only [run1, htr, sendCount, List.filter_append, List.length_append,
            List.filter_cons, Call.isSend]
          have hz : ((run1 fb (sendStep fb st c).1 cs).2.filter Call.isSend).length = 0 := by
            rw [List.length_eq_zero]
            rw [List.filter_eq_nil_iff]
            intro call hcall
            simp [(hrest.2 call hcall).1]
          have hfz : ((fileCalls c.handle c.files).filter Call.isSend) = [] := by
            rw [List.filter_eq_nil_iff]
            intro call hcall
            simp [mem_fileCalls hcall, Call.isSend]
          simp [hz, hfz]
        constructor
        · intro h b v hm
          simp only [run1, htr, List.mem_append, List.mem_cons] at hm
          rcases hm with (hm | hm) | hm
          · cases hm
          · cases mem_fileCalls hm
          · have hh : h = c.handle := (hrest.2 _ hm).2 h b v rfl
            subst hh
            exact ⟨body, view, by simp [run1, htr]⟩
        · intro h b v hm
          simp only [run1, htr, List.mem_append, List.mem_cons] at hm
          rcases hm with (hm | hm) | hm
          · injection hm with h1 h2 h3
            subst h1
            simpa [run1] using hrest.1
          · cases mem_fileCalls hm
          · exact absurd (hrest.2 _ hm).1 (by simp [Call.isSend])
      · obtain ⟨h0, body, view, hsome, -, -⟩ := hsh
        rw [ha] at hsome; cases hsome

/-! ### C1 -/

/-- C1: for every response id and every sequence of chunks processed by the
dispatcher, at most one send call is performed; every edit call targets the
handle returned by the (unique) send; and the handle of any send is what the
Response's `active` field stores at the end of the run. -/
theorem c1_at_most_one_send (fb : Bool) (cs : List Chunk) :
    sendCount (run1 fb initState cs).2 ≤ 1 ∧
    (∀ h b v, Call.edit h b v ∈ (run1 fb initState cs).2 →
      ∃ b2 v2, Call.send h b2 v2 ∈ (run1 fb initState cs).2) ∧
    (∀ h b v, Call.send h b v ∈ (run1 fb initState cs).2 →
      (run1 fb initState cs).1.active = some h) :=
  run1_active_none fb cs initState rfl

/-- C1 witness: on a concrete two-chunk stream the second render is an edit
of handle 7, and the run indeed contains a send with handle 7 stored in
`active`. -/
theorem c1_at_most_one_send_witness :
    ∃ b2 v2, Call.send 7 b2 v2 ∈
      (run1 false initState
        [⟨"r1", ChannelKind.text, [some "hel"], [], false, false, 2000, 7⟩,
         ⟨"r1", ChannelKind.text, [some "hello"], [], false, false, 4000, 8⟩]).2 :=
  (c1_at_most_one_send false
    [⟨"r1", ChannelKind.text, [some "hel"], [], false, false, 2000, 7⟩,
     ⟨"r1", ChannelKind.text, [some "hello"], [], false, false, 4000, 8⟩]).2.1
    7 "hello" false (by decide)

/-! ### C7 -/

lemma tagged_filter (t u : String) (l : List Call) :
    (((l.map (fun call => (t, call))).filter (fun p => p.1 = u)).map Prod.snd) =
      if t = u then l else [] := by
  induction l with
  | nil => simp
  | cons x xs ih =>
      by_cases h : t = u
      · subst h
        simp [ih]
      · simp only [List.map_cons, List.filter_cons]
        simp [h, ih]

lemma runMap_proj (fb : Bool) (u : String) :
    ∀ (cs : List Chunk) (m : StateMap),
      (runMap fb m cs).1 u =
        (run1 fb (m u) (cs.filter (fun c => c.uuid = u))).1 ∧
      (((runMap fb m cs).2.filter (fun p => p.1 = u)).map Prod.snd) =
        (run1 fb (m u) (cs.filter (fun c => c.uuid = u))).2 := by
  intro cs
  induction cs with
  | nil => intro m; simp [runMap, run1]
  | cons c cs ih =>
      intro m
      have hdisp2 : (dispatchStep fb m c).2 =
          (sendStep fb (m c.uuid) c).2.map (fun call => (c.uuid, call)) := rfl
      by_cases hc : c.uuid = u
      · subst hc
        have ihm := ih (dispatchStep fb m c).1
        have hm1 : (dispatchStep fb m c).1 c.uuid = (sendStep fb (m c.uuid) c).1 := by
          simp [dispatchStep]
        have hfil : (c :: cs).filter (fun x => x.uuid = c.uuid) =
            c :: cs.filter (fun x => x.uuid = c.uuid) := by
          simp [List.filter_cons]
        constructor
        · show (runMap fb (dispatchStep fb m c).1 cs).1 c.uuid = _
          rw [ihm.1, hm1, hfil]
          simp [run1]
        · show ((((dispatchStep fb m c).2 ++
              (runMap fb (dispatchStep fb m c).1 cs).2).filter
                (fun p => p.1 = c.uuid)).map Prod.snd) = _
          rw [List.filter_append, List.map_append, hdisp2,
            tagged_filter c.uuid c.uuid, if_pos rfl, ihm.2, hm1, hfil]
          simp [run1]
      · have ihm := ih (dispatchStep fb m c).1
        have hm1 : (dispatchStep fb m c).1 u = m u := by
          simp [dispatchStep, Ne.symm hc]
        have hfil : (c :: cs).filter (fun x => x.uuid = u) =
            cs.filter (fun x => x.uuid = u) := by
          simp [List.filter_cons, hc]
        constructor
        · show (runMap fb (dispatchStep fb m c).1 cs).1 u = _
          rw [ihm.1, hm1, hfil]
        · show ((((dispatchStep fb m c).2 ++
              (runMap fb (dispatchStep fb m c).1 cs).2).filter
                (fun p => p.1 = u)).map Prod.snd) = _
          rw [List.filter_append, List.map_append, hdisp2,
            tagged_filter c.uuid u, if_neg hc, ihm.2, hm1, hfil]
          simp

/-- C7: for any interleaved chunk sequence, the final state stored for a
response id `u` and the platform calls performed for `u` are exactly the
state and calls of running only `u`'s own chunk subsequence: chunks of other
ids neither read nor write `u`'s state nor contribute to its calls. -/
theorem c7_isolation (fb : Bool) (cs : List Chunk) (u : String) :
    (runMap fb initMap cs).1 u =
      (run1 fb initState (cs.filter (fun c => c.uuid = u))).1 ∧
    (((runMap fb initMap cs).2.filter (fun p => p.1 = u)).map Prod.snd) =
      (run1 fb initState (cs.filter (fun c => c.uuid = u))).2 :=
  runMap_proj fb u cs initMap

/-! ### Properties of the rendered body -/

lemma pyTake_length (s : String) (n : Nat) :
    (pyTake s n).length = min n s.length := by
  show (s.data.take n).length = min n s.length
  rw [List.length_take]
  rfl

lemma string_ne_empty_of_length_pos {s : String} (h : 0 < s.length) :
    s ≠ "" := by
  intro he
  rw [he] at h
  exact absurd h (by decide)

/-- The body computed by lines 379-381 is never empty, never exceeds 2000
code points, is the 2000-point truncation when the text overflows, and is
the zero-width placeholder exactly when the text is empty. -/
lemma renderBody_spec (t : String) :
    renderBody t ≠ "" ∧ (renderBody t).length ≤ 2000 ∧
    (2000 < t.length → renderBody t = pyTake t 2000) ∧
    (t = "" → renderBody t = zwsp) := by
  by_cases h0 : t = ""
  · subst h0
    refine ⟨by decide, by decide, ?_, fun _ => by decide⟩
    intro h
    exact absurd h (by decide)
  · by_cases h1 : 2000 < t.length
    · have hb : renderBody t = pyTake t 2000 := by
        simp [renderBody, h0, h1]
      have hl : (pyTake t 2000).length = 2000 := by
        rw [pyTake_length]
        omega
      refine ⟨?_, ?_, fun _ => hb, fun he => absurd he h0⟩
      · rw [hb]
        exact string_ne_empty_of_length_pos (by omega)
      · rw [hb, hl]
    · have hb : renderBody t = t := by
        simp [renderBody, h0, h1]
      refine ⟨by rw [hb]; exact h0, by rw [hb]; omega, fun h => absurd h h1,
        fun he => absurd he h0⟩

lemma filter_isRender_fileCalls (h : Nat) (fs : List String) :
    (fileCalls h fs).filter Call.isRender = [] := by
  unfold fileCalls
  split <;> simp [Call.isRender]

/-- Every rendering call of one step carries the body computed from the
chunk's own concatenated text (with the empty-body placeholder and the
2000-point truncation), and the feedback view flag computed from the
chunk's `response_complete` and the configured endpoint. -/
lemma sendStep_render_calls (fb : Bool) (st : State) (c : Chunk) :
    ((sendStep fb st c).2.filter Call.isRender = []) ∨
    ∃ call, (sendStep fb st c).2.filter Call.isRender = [call] ∧
      Call.isRender call = true ∧
      Call.bodyOf call = renderBody (concatText c.textParts) ∧
      Call.viewOf call = (c.responseComplete && fb) := by
  obtain ⟨t, le, a⟩ := st
  by_cases h1 : (concatText c.textParts).length ≤ t.length ∧ c.lastChunk = false
  · left
    simp [sendStep, h1]
  · by_cases h2 : c.lastChunk = true ∨ c.responseComplete = true ∨ c.now - le > 1200
    · by_cases h3 : postable c.channelKind = false
      · left
        simp [sendStep, h1, h2, h3]
      · cases a with
        | none =>
            right
            refine ⟨Call.send c.handle (renderBody (concatText c.textParts))
              (c.responseComplete && fb), ?_, rfl, rfl, rfl⟩
            simp [sendStep, h1, h2, h3, List.filter_cons, Call.isRender,
              filter_isRender_fileCalls]
        | some h =>
            right
            refine ⟨Call.edit h (renderBody (concatText c.textParts))
              (c.responseComplete && fb), ?_, rfl, rfl, rfl⟩
            simp [sendStep, h1, h2, h3, List.filter_cons, Call.isRender,
              filter_isRender_fileCalls]
    · left
      simp [sendStep, h1, h2]

/-! ### C2 -/

/-- C2 counterexample: a single chunk with `responseComplete = true` and a
feedback endpoint configured whose channel does not resolve to a postable
conversation produces zero view-carrying calls, so the feedback UI does not
appear in the rendered output of exactly one chunk of the sequence. -/
theorem c2_counterexample :
    ((run1 true initState
        [⟨"r1", ChannelKind.other, [some "done"], [], false, true, 5000, 3⟩]).2.filter
          Call.viewOf).length = 0 ∧
    (⟨"r1", ChannelKind.other, [some "done"], [], false, true, 5000, 3⟩ :
        Chunk).responseComplete = true := by
  decide

/-- C2 (amended): the feedback-button UI is attached on exactly those
rendering calls whose chunk has `responseComplete = true` while a feedback
endpoint is configured, and never when no endpoint is configured; a
response-complete chunk that is not rendered contributes no attachment, so
the UI need not appear for exactly one chunk of the sequence. -/
theorem c2_feedback_view_iff (fb : Bool) (st : State) (c : Chunk) :
    ((sendStep fb st c).2.filter Call.isRender).all
      (fun call => Call.viewOf call == (c.responseComplete && fb)) = true := by
  rcases sendStep_render_calls fb st c with hr | ⟨call, hr, -, -, hv⟩
  · rw [hr]
    rfl
  · rw [hr]
    simp [hv]

/-! ### C3 (code bug: `state.text` is never updated) -/

/-- C3: the code renders a stale chunk.  After a chunk with text `"hello"`
is rendered, a later chunk with the shorter text `"hi"` and
`lastChunk = false` is *not* suppressed (the suppression check compares
with `state.text`, which `__send_message` never updates from `""`), and
once the throttle window has reopened it renders an edit that replaces
`"hello"` with `"hi"` — the claim requires no render and no state change. -/
theorem c3_stale_chunk_renders :
    (run1 false initState
      [⟨"r1", ChannelKind.text, [some "hello"], [], false, false, 2000, 7⟩,
       ⟨"r1", ChannelKind.text, [some "hi"], [], false, false, 4000, 8⟩]).2 =
      [Call.send 7 "hello" false, Call.edit 7 "hi" false] ∧
    (concatText [some "hi"]).length ≤ (concatText [some "hello"]).length ∧
    (⟨"r1", ChannelKind.text, [some "hi"], [], false, false, 4000, 8⟩ :
        Chunk).lastChunk = false := by
  decide

/-! ### C4 (code bug: `state.text` is never updated) -/

/-- C4: `__send_message` contains no assignment to `state.text`, so the
stored accumulated text never changes on any step — in particular a chunk
that passes the suppression check and is rendered leaves `State.text` at
`""` instead of its concatenated text `"abc"`. -/
theorem c4_text_never_updated :
    (∀ (fb : Bool) (st : State) (c : Chunk), (sendStep fb st c).1.text = st.text) ∧
    (run1 false initState
        [⟨"r1", ChannelKind.text, [some "abc"], [], false, false, 2000, 7⟩]).1.text = ""
      ∧ concatText [some "abc"] = "abc" := by
  refine ⟨?_, by decide, by decide⟩
  intro fb st c
  obtain ⟨t, le, a⟩ := st
  by_cases h1 : (concatText c.textParts).length ≤ t.length ∧ c.lastChunk = false
  · simp [sendStep, h1]
  · by_cases h2 : c.lastChunk = true ∨ c.responseComplete = true ∨ c.now - le > 1200
    · by_cases h3 : postable c.channelKind = false
      · simp [sendStep, h1, h2, h3]
      · cases a with
        | none => simp [sendStep, h1, h2, h3]
        | some h => simp [sendStep, h1, h2, h3]
    · simp [sendStep, h1, h2]

/-! ### C5 -/

/-- C5 counterexample: a chunk with `lastChunk = true` (so both the
suppression proviso and the throttle gate are passed) whose channel does
not resolve to a postable conversation produces no platform call at all,
although the claim says such a terminal chunk is always rendered. -/
theorem c5_counterexample :
    (sendStep true initState
        ⟨"r1", ChannelKind.other, [some "hi"], [], true, false, 5000, 3⟩).2 = [] ∧
    (⟨"r1", ChannelKind.other, [some "hi"], [], true, false, 5000, 3⟩ :
        Chunk).lastChunk = true ∧
    initState.text.length <
      (concatText (⟨"r1", ChannelKind.other, [some "hi"], [], true, false, 5000, 3⟩ :
        Chunk).textParts).length := by
  decide

/-- C5 (amended): every chunk with `lastChunk = true` or
`responseComplete = true` whose channel resolves to a postable conversation
is rendered regardless of how recently the previous render happened,
provided its text length exceeds the stored accumulated length or it is a
`lastChunk` chunk; the throttle interval never suppresses such a chunk. -/
theorem c5_forced_flush (fb : Bool) (st : State) (c : Chunk)
    (hterm : c.lastChunk = true ∨ c.responseComplete = true)
    (hpost : postable c.channelKind = true)
    (hpass : st.text.length < (concatText c.textParts).length ∨ c.lastChunk = true) :
    ∃ call ∈ (sendStep fb st c).2, Call.isRender call = true := by
  obtain ⟨t, le, a⟩ := st
  have h1 : ¬((concatText c.textParts).length ≤ t.length ∧ c.lastChunk = false) := by
    rcases hpass with hp | hp
    · intro hcon
      exact absurd hcon.1 (by simpa using hp)
    · intro hcon
      rw [hp] at hcon
      cases hcon.2
  have h2 : c.lastChunk = true ∨ c.responseComplete = true ∨ c.now - le > 1200 := by
    rcases hterm with ht | ht
    · exact Or.inl ht
    · exact Or.inr (Or.inl ht)
  have h3 : ¬(postable c.channelKind = false) := by simp [hpost]
  cases a with
  | none =>
      exact ⟨Call.send c.handle (renderBody (concatText c.textParts))
        (c.responseComplete && fb), by simp [sendStep, h1, h2, h3], rfl⟩
  | some h =>
      exact ⟨Call.edit h (renderBody (concatText c.textParts))
        (c.responseComplete && fb), by simp [sendStep, h1, h2, h3], rfl⟩

/-- C5 witness: a concrete `lastChunk` chunk on a resolvable text channel
renders even though the throttle window is closed (`now = last_edit`). -/
theorem c5_forced_flush_witness :
    ∃ call ∈ (sendStep true { text := "", last_edit := 100, active := some 4 }
      ⟨"r1", ChannelKind.text, [some "bye"], [], true, false, 100, 9⟩).2,
      Call.isRender call = true :=
  c5_forced_flush true { text := "", last_edit := 100, active := some 4 }
    ⟨"r1", ChannelKind.text, [some "bye"], [], true, false, 100, 9⟩
    (Or.inl rfl) rfl (by decide)

/-! ### C6 -/

/-- C6: every rendering call carries a non-empty body of at most 2000 code
points; a text longer than 2000 points is truncated to exactly its first
2000 points, and an empty concatenated text is rendered as the zero-width
placeholder instead of an empty body. -/
theorem c6_body_bounds (fb : Bool) (st : State) (c : Chunk) :
    ∀ call ∈ (sendStep fb st c).2, Call.isRender call = true →
      Call.bodyOf call ≠ "" ∧ (Call.bodyOf call).length ≤ 2000 ∧
      (2000 < (concatText c.textParts).length →
        Call.bodyOf call = pyTake (concatText c.textParts) 2000) ∧
      (concatText c.textParts = "" → Call.bodyOf call = zwsp) := by
  intro call hmem hrend
  have hcall : call ∈ (sendStep fb st c).2.filter Call.isRender :=
    List.mem_filter.mpr ⟨hmem, hrend⟩
  rcases sendStep_render_calls fb st c with hr | ⟨call2, hr, -, hb, -⟩
  · rw [hr] at hcall
    cases hcall
  · rw [hr] at hcall
    have : call = call2 := by simpa using hcall
    subst this
    rw [hb]
    exact renderBody_spec (concatText c.textParts)

/-- C6 witness: a terminal chunk with empty text on a resolvable channel is
rendered as the zero-width placeholder; its body is non-empty and within
the 2000-point bound. -/
theorem c6_body_bounds_witness :
    Call.bodyOf (Call.send 3 zwsp false) ≠ "" ∧
    (Call.bodyOf (Call.send 3 zwsp false)).length ≤ 2000 ∧
    (2000 < (concatText ([] : List (Option String))).length →
      Call.bodyOf (Call.send 3 zwsp false) = pyTake (concatText []) 2000) ∧
    (concatText ([] : List (Option String)) = "" →
      Call.bodyOf (Call.send 3 zwsp false) = zwsp) :=
  c6_body_bounds true initState ⟨"r1", ChannelKind.text, [], [], true, false, 0, 3⟩
    (Call.send 3 zwsp false) (by decide) rfl

/-! ### `DiscordOutput.invoke` (lines 141-184) -/

/-- Python truthiness of an optional string (`if not channel`). -/
def pyTruthy : Option String → Bool
  | none => false
  | some s => if s = "" then false else true

/-- The fields `DiscordOutput.invoke` reads from `data["content"]` and
`data["message_info"]`.  `files`, `streaming` and the like are carried
opaque (as names / flags); `feedback_data` is not read by `invoke` beyond
being passed through and is omitted. -/
structure InvokeData where
  text : Option String
  uuid : Option String
  files : List String
  streaming : Bool
  status_update : Bool
  response_complete : Bool
  last_chunk : Bool
  first_chunk : Bool
  ts : Option String
  channel : Option String
  ack_msg_ts : Option String
deriving DecidableEq

/-- The dictionary returned by `DiscordOutput.invoke` on the non-discard
path. -/
structure OutMessage where
  text : Option String
  uuid : Option String
  files : List String
  streaming : Bool
  channel : String
  thread_ts : Option String
  ack_msg_ts : Option String
  status_update : Bool
  last_chunk : Bool
  first_chunk : Bool
  response_complete : Bool
deriving DecidableEq

/-- A Python exception escaping `invoke`: the `TypeError` raised by
`":thinking_face: " + text` when `text` is `None` (line 164). -/
inductive PyErr where
  | typeError
deriving DecidableEq

/-- The tail of `invoke` after the text transformation (lines 166-184):
the channel check — log and discard (`return None`) on a falsy channel —
and the returned dictionary otherwise. -/
def invokeProceed (d : InvokeData) (text : Option String)
    (status_update : Bool) : Except PyErr (Option OutMessage) :=
  if pyTruthy d.channel = false then
    Except.ok none
  else
    Except.ok (some { text := text, uuid := d.uuid, files := d.files,
                      streaming := d.streaming, channel := d.channel.getD "",
                      thread_ts := d.ts, ack_msg_ts := d.ack_msg_ts,
                      status_update := status_update,
                      last_chunk := d.last_chunk,
                      first_chunk := d.first_chunk,
                      response_complete := d.response_complete })

/-- `DiscordOutput.invoke`: on `response_complete` force
`status_update = True` and replace the text with the completion banner;
otherwise on `status_update` put the thinking-face marker in front of the
text — which raises a `TypeError` when `text` is `None`, *before* the
channel check runs; then check the channel and build the output. -/
def invoke (d : InvokeData) : Except PyErr (Option OutMessage) :=
  if d.response_complete then
    invokeProceed d (some ":checkered_flag: Response complete") true
  else if d.status_update then
    match d.text with
    | none => Except.error PyErr.typeError
    | some t => invokeProceed d (some (":thinking_face: " ++ t)) d.status_update
  else
    invokeProceed d d.text d.status_update

/-! ### C8 -/

/-- C8 counterexample: an outbound message with a missing channel is *not*
always discarded silently — when `status_update` is truthy,
`response_complete` falsy and `text` is `None`, the text transformation
raises a `TypeError` before the channel check ever runs, so an error is
raised to the producer instead of the silent `return None`. -/
theorem c8_counterexample :
    invoke ⟨none, none, [], false, true, false, false, false,
        none, none, none⟩ = Except.error PyErr.typeError ∧
    pyTruthy (⟨none, none, [], false, true, false, false, false,
        none, none, none⟩ : InvokeData).channel = false :=
  ⟨rfl, rfl⟩

/-- C8 (amended): a chunk whose channel does not resolve to a text channel
or thread makes the dispatch step return without performing any platform
call; and a chunk with a missing (falsy) channel is discarded silently by
`invoke` (`return None`, no platform call, no error raised to the
producer) — provided it does not already fail in the text-transformation
step, i.e. unless `status_update` is truthy, `response_complete` falsy and
`text` missing, in which case a `TypeError` is raised before the channel
check. -/
theorem c8_unroutable_discarded (fb : Bool) (st : State) (c : Chunk)
    (d : InvokeData)
    (hpost : postable c.channelKind = false)
    (hchan : pyTruthy d.channel = false)
    (hdef : d.response_complete = true ∨ d.status_update = false ∨ d.text ≠ none) :
    (sendStep fb st c).2 = [] ∧ invoke d = Except.ok none := by
  constructor
  · obtain ⟨t, le, a⟩ := st
    by_cases h1 : (concatText c.textParts).length ≤ t.length ∧ c.lastChunk = false
    · simp [sendStep, h1]
    · by_cases h2 : c.lastChunk = true ∨ c.responseComplete = true ∨ c.now - le > 1200
      · simp [sendStep, h1, h2, hpost]
      · simp [sendStep, h1, h2]
  · rcases hdef with h | h | h
    · simp [invoke, invokeProceed, h, hchan]
    · by_cases hrc : d.response_complete <;>
        simp [invoke, invokeProceed, hrc, h, hchan]
    · by_cases hrc : d.response_complete
      · simp [invoke, invokeProceed, hrc, hchan]
      · obtain ⟨t, ht⟩ := Option.ne_none_iff_exists'.mp h
        by_cases hsu : d.status_update <;>
          simp [invoke, invokeProceed, hrc, hsu, ht, hchan]

/-- C8 witness: a concrete terminal chunk whose channel resolves to a
non-postable object yields no platform call, and a concrete outbound
message with no channel (and `status_update` falsy) is discarded by
`invoke` without an error. -/
theorem c8_unroutable_discarded_witness :
    (sendStep true initState
        ⟨"r1", ChannelKind.other, [some "x"], [], true, false, 9999, 1⟩).2 = [] ∧
    invoke ⟨some "hello", none, [], false, false, false, false, false,
      none, none, none⟩ = Except.ok none :=
  c8_unroutable_discarded true initState
    ⟨"r1", ChannelKind.other, [some "x"], [], true, false, 9999, 1⟩
    ⟨some "hello", none, [], false, false, false, false, false, none, none, none⟩
    rfl rfl (Or.inr (Or.inl rfl))

/-! ### C10 -/

/-- C10: `invoke` replaces the text of a `response_complete` message with
the fixed completion banner and forces `status_update`; a `status_update`
message that is not `response_complete` gets the thinking-face marker put
in front of its text; and a chunk whose text is the banner renders with the
banner as its body (so the completion render shows the banner, not the
accumulated streamed text). -/
theorem c10_completion_banner (d : InvokeData) (t : String)
    (hch : pyTruthy d.channel = true) :
    (d.response_complete = true →
      (invoke d).map (fun o => o.map (fun m => (m.text, m.status_update))) =
        Except.ok (some (some ":checkered_flag: Response complete", true))) ∧
    (d.response_complete = false → d.status_update = true → d.text = some t →
      (invoke d).map (fun o => o.map (fun m => m.text)) =
        Except.ok (some (some (":thinking_face: " ++ t)))) ∧
    (∀ (fb : Bool) (st : State) (c : Chunk),
      c.textParts = [some ":checkered_flag: Response complete"] →
      ((sendStep fb st c).2.filter Call.isRender).all
        (fun call =>
          Call.bodyOf call == ":checkered_flag: Response complete") = true) := by
  refine ⟨?_, ?_, ?_⟩
  · intro hrc
    simp [invoke, invokeProceed, hrc, hch, Except.map]
  · intro hrc hsu htext
    simp [invoke, invokeProceed, hrc, hsu, htext, hch, Except.map]
  · intro fb st c hparts
    rcases sendStep_render_calls fb st c with hr | ⟨call, hr, -, hb, -⟩
    · rw [hr]
      rfl
    · rw [hr]
      simp only [List.all_cons, List.all_nil, Bool.and_true]
      rw [hb, hparts]
      decide

/-- C10 witness: a concrete completed message gets the banner text with
`status_update` forced, and a concrete status update gets the
thinking-face marker. -/
theorem c10_completion_banner_witness :
    (invoke ⟨some "ignored", none, [], false, false, true, false, false,
      none, some "chan", none⟩).map
        (fun o => o.map (fun m => (m.text, m.status_update))) =
      Except.ok (some (some ":checkered_flag: Response complete", true)) ∧
    (invoke ⟨some "working", none, [], false, true, false, false, false,
      none, some "chan", none⟩).map (fun o => o.map (fun m => m.text)) =
      Except.ok (some (some (":thinking_face: " ++ "working"))) :=
  ⟨(c10_completion_banner ⟨some "ignored", none, [], false, false, true, false,
      false, none, some "chan", none⟩ "ignored" rfl).1 rfl,
   (c10_completion_banner ⟨some "working", none, [], false, true, false, false,
      false, none, some "chan", none⟩ "working" rfl).2.1 rfl rfl rfl⟩

/-! ### The interaction router (`register_action_handlers.on_interaction`,
lines 432-448) -/

/-- `ComponentType.button.value` in the platform SDK. -/
def buttonValue : Nat := 2

/-- The parts of `interaction.data` the router reads: the optional
`component_type` value and the `custom_id` string (present on every button
interaction, indexed directly by the source). -/
structure InteractionData where
  component_type : Option Nat
  custom_id : String
deriving DecidableEq

/-- `interaction.type`, as far as the `InteractionType.component` test can
observe. -/
inductive InteractionKind where
  | component
  | otherKind
deriving DecidableEq

/-- An inbound interaction event: its type, its (possibly falsy) data, and
the handle of the originating message if any. -/
structure Interaction where
  kind : InteractionKind
  data : Option InteractionData
  message : Option Nat
deriving DecidableEq

/-- What the router does, in order: clear the view of the originating
message, start the thumbs-up acknowledgement, or open the thumbs-down
feedback modal (the bodies of `thumbs_up_callback` / `thumbs_down_callback`
are abstracted to the action they initiate). -/
inductive UIAction where
  | clearView (message : Nat)
  | thumbsUpAck
  | thumbsDownModal
deriving DecidableEq

/-- The `on_interaction` event handler: act only on component interactions
with truthy data whose `component_type` is the button value; then clear the
originating message's view (when there is one) and dispatch on
`custom_id`. -/
def on_interaction (i : Interaction) : List UIAction :=
  if i.kind ≠ InteractionKind.component then []
  else
    match i.data with
    | none => []
    | some d =>
      match d.component_type with
      | none => []
      | some ct =>
        if ct ≠ buttonValue then []
        else
          (match i.message with
           | some m => [UIAction.clearView m]
           | none => []) ++
          (if d.custom_id = "thumbs_up" then [UIAction.thumbsUpAck]
           else if d.custom_id = "thumbs_down" then [UIAction.thumbsDownModal]
           else [])

/-! ### C9 -/

/-- C9: the router acts only on component-type button interactions; on such
an interaction it first clears the view of the originating message (when
one exists) and then dispatches on the custom identifier to exactly the
matching handler — `thumbs_up` to the acknowledgement, `thumbs_down` to the
feedback modal — while an unknown identifier triggers no handler and no
error. -/
theorem c9_interaction_router (i : Interaction) (d : InteractionData) :
    (i.kind ≠ InteractionKind.component → on_interaction i = []) ∧
    (i.data = none → on_interaction i = []) ∧
    (i.data = some d → d.component_type ≠ some buttonValue →
      on_interaction i = []) ∧
    (i.kind = InteractionKind.component → i.data = some d →
      d.component_type = some buttonValue →
      ((∀ m, i.message = some m →
          ∃ hs, on_interaction i = UIAction.clearView m :: hs ∧
            ∀ a ∈ hs, ∀ m2, a ≠ UIAction.clearView m2) ∧
       (UIAction.thumbsUpAck ∈ on_interaction i ↔ d.custom_id = "thumbs_up") ∧
       (UIAction.thumbsDownModal ∈ on_interaction i ↔
          d.custom_id = "thumbs_down"))) := by
  obtain ⟨k, dat, msg⟩ := i
  refine ⟨?_, ?_, ?_, ?_⟩
  · intro hk
    simp only [on_interaction]
    rw [if_pos hk]
  · intro hdat
    simp only at hdat
    subst hdat
    cases k <;> simp [on_interaction]
  · intro hdat hct
    simp only at hdat
    subst hdat
    cases k with
    | otherKind => simp [on_interaction]
    | component =>
        obtain ⟨ct, cid⟩ := d
        simp only at hct
        cases ct with
        | none => simp [on_interaction]
        | some v =>
            have hv : v ≠ buttonValue := fun he => hct (by rw [he])
            simp [on_interaction, hv]
  · intro hk hdat hct
    simp only at hk hdat
    subst hk
    subst hdat
    obtain ⟨ct, cid⟩ := d
    simp only at hct
    subst hct
    have hrw : on_interaction
        ⟨InteractionKind.component, some ⟨some buttonValue, cid⟩, msg⟩ =
        (match msg with
         | some m => [UIAction.clearView m]
         | none => []) ++
        (if cid = "thumbs_up" then [UIAction.thumbsUpAck]
         else if cid = "thumbs_down" then [UIAction.thumbsDownModal]
         else []) := by
      simp [on_interaction]
    refine ⟨?_, ?_, ?_⟩
    · intro m hm
      simp only at hm
      subst hm
      refine ⟨(if cid = "thumbs_up" then [UIAction.thumbsUpAck]
               else if cid = "thumbs_down" then [UIAction.thumbsDownModal]
               else []), by simpa using hrw, ?_⟩
      intro a ha m2
      by_cases h1 : cid = "thumbs_up"
      · simp [h1] at ha
        subst ha
        simp
      · by_cases h2 : cid = "thumbs_down"
        · simp [h1, h2] at ha
          subst ha
          simp
        · simp [h1, h2] at ha
    · rw [hrw]
      by_cases h1 : cid = "thumbs_up"
      · cases msg <;> simp [h1]
      · by_cases h2 : cid = "thumbs_down"
        · cases msg <;> simp [h1, h2]
        · cases msg <;> simp [h1, h2]
    · rw [hrw]
      by_cases h1 : cid = "thumbs_up"
      · cases msg <;> simp [h1]
      · by_cases h2 : cid = "thumbs_down"
        · cases msg <;> simp [h1, h2]
        · cases msg <;> simp [h1, h2]

/-- C9 witness: a concrete thumbs-up button interaction on message 5 first
clears the view and its action list contains the thumbs-up handler and not
the thumbs-down one; a concrete non-component interaction is ignored. -/
theorem c9_interaction_router_witness :
    (UIAction.thumbsUpAck ∈
        on_interaction ⟨InteractionKind.component,
          some ⟨some buttonValue, "thumbs_up"⟩, some 5⟩ ↔
      ("thumbs_up" : String) = "thumbs_up") ∧
    on_interaction ⟨InteractionKind.otherKind,
      some ⟨some buttonValue, "thumbs_up"⟩, some 5⟩ = [] :=
  ⟨((c9_interaction_router ⟨InteractionKind.component,
        some ⟨some buttonValue, "thumbs_up"⟩, some 5⟩
      ⟨some buttonValue, "thumbs_up"⟩).2.2.2 rfl rfl rfl).2.1,
   (c9_interaction_router ⟨InteractionKind.otherKind,
        some ⟨some buttonValue, "thumbs_up"⟩, some 5⟩
      ⟨some buttonValue, "thumbs_up"⟩).1 (by decide)⟩

end SolaceDiscord
